import Mathlib

/-!
Verification development for the AngularJS memory-leak demo application
(client/app/app.js and client/app/directives/root.directive.js).

The development shallowly embeds:

* the JS expression `(new Array n).join sep` (ECMA-262 `Array.prototype.join`
  over an array of `n` empty slots);
* the `rootTest` directive of root.directive.js: its `link` function, the
  `someEvent` handler it registers on `$rootScope`, and the deregistration
  function `cleanUp` returned by `$rootScope.$on` (whose only call site is
  inside a commented-out `$destroy` handler);
* the `HomeController` of app.js (the `isActive` helper and the four
  `scenario1` .. `scenario4` triggers delegating to `ScenariosService`);
* the `$routeProvider` configuration of app.js, together with the
  `resolve.album` function of the `/album/:albumId` route, with `$http.get`
  and promise chaining modelled explicitly.

DOM side effects (the `element.tooltip` call inside the `someEvent` handler)
are outside the scope-state model; they touch no scope or listener state.
-/

namespace MemLeakDemo

/-- Model of the JS expression `(new Array n).join sep`: an array of `n`
empty slots joined with `sep`.  Per ECMA-262, every hole converts to the
empty string, so the result is `sep` repeated `n - 1` times (empty for
`n = 0`). -/
def newArrayJoin (n : Nat) (sep : String) : String :=
  String.intercalate sep (List.replicate n "")

/-- The large string built by root.directive.js on every `link` invocation
and on every firing of the `someEvent` handler:
`(new Array(999999)).join("x")`. -/
def largeVal : String := newArrayJoin 999999 "x"

/-- The isolated scope (`scope: \x7b\x7d`) of one `rootTest` directive
instance.  `val` starts unset and is assigned by `link`. -/
structure Scope where
  val : Option String
  deriving Repr, DecidableEq

/-- One registration made by `$rootScope.$on`.  `scopeIdx` identifies the
directive scope captured by the handler closure; `active` becomes false
only if the deregistration function returned by `$on` is invoked. -/
structure Registration where
  eventName : String
  scopeIdx : Nat
  active : Bool
  deriving Repr, DecidableEq

/-- The state of the demo application relevant to the `rootTest` directive:
all directive scopes created so far and the `$rootScope` listener list. -/
structure AppState where
  scopes : List Scope
  listeners : List Registration
  deriving Repr, DecidableEq

def initState : AppState := { scopes := [], listeners := [] }

/-- The `link` function of the `rootTest` directive: it creates a fresh
isolated scope, assigns `scope.val = (new Array(999999)).join("x")`, and
registers a `someEvent` handler on `$rootScope` whose closure captures
that scope.  The commented-out `$destroy` registration is absent, so no
deregistration is wired up. -/
def link (st : AppState) : AppState :=
  { scopes := st.scopes ++ [{ val := some largeVal }],
    listeners := st.listeners ++
      [{ eventName := "someEvent", scopeIdx := st.scopes.length, active := true }] }

/-- The deregistration function returned by `$rootScope.$on`, bound to
`cleanUp` in root.directive.js: invoking it would deactivate registration
`i`.  Its only call site in the source is inside the commented-out
`$destroy` handler. -/
def cleanUp (i : Nat) (st : AppState) : AppState :=
  { st with
    listeners :=
      st.listeners.enum.map fun p =>
        if p.1 = i then { p.2 with active := false } else p.2 }

/-- Effect of one registered `someEvent` handler on the scope list: the
`rootTest` handler reassigns `scope.val = (new Array(999999)).join("x")`
on its captured scope (the `element.tooltip` call touches only the DOM). -/
def fireHandler (r : Registration) (scopes : List Scope) : List Scope :=
  if r.active && r.eventName == "someEvent" then
    scopes.set r.scopeIdx { val := some largeVal }
  else
    scopes

/-- Broadcasting `someEvent` on `$rootScope` runs every registered active
handler. -/
def broadcastSomeEvent (st : AppState) : AppState :=
  { st with scopes := st.listeners.foldl (fun sc r => fireHandler r sc) st.scopes }

/-- The events the program can perform.  `invokeLink` is one invocation of
the exposed scenario (re-running the directive `link` function);
`fireSomeEvent` is a `$rootScope` broadcast of `someEvent`;
`destroyElement` is the destruction of the directive element - because the
`$destroy` handler in root.directive.js is commented out, it runs no code
of the directive. -/
inductive Event where
  | invokeLink
  | fireSomeEvent
  | destroyElement
  deriving Repr, DecidableEq

def step : Event → AppState → AppState
  | Event.invokeLink, st => link st
  | Event.fireSomeEvent, st => broadcastSomeEvent st
  | Event.destroyElement, st => st

def run : List Event → AppState → AppState
  | [], st => st
  | e :: tr, st => run tr (step e st)

/-- Characters retained by the scope at index `i` (0 when the index is out
of range or `val` is unset). -/
def scopeRetained (scopes : List Scope) (i : Nat) : Nat :=
  match scopes[i]? with
  | some s =>
      match s.val with
      | some v => v.length
      | none => 0
  | none => 0

/-- Characters retained through the `$rootScope` listener list: each active
registration keeps its captured scope (and hence the string in `val`)
reachable. -/
def retainedMem (st : AppState) : Nat :=
  ((st.listeners.filter fun r => r.active).map
    fun r => scopeRetained st.scopes r.scopeIdx).sum

/-- Invariant of every reachable state: every directive scope holds the
large string, and every registration is an active `someEvent` registration
whose captured scope exists. -/
def GoodState (st : AppState) : Prop :=
  (∀ s ∈ st.scopes, s.val = some largeVal) ∧
  (∀ r ∈ st.listeners,
    r.active = true ∧ r.eventName = "someEvent" ∧ r.scopeIdx < st.scopes.length)

/-- `leadsWith sub l` holds when `l` starts with `sub`. -/
def leadsWith : List Char → List Char → Bool
  | [], _ => true
  | _ :: _, [] => false
  | a :: as, b :: bs => a == b && leadsWith as bs

/-- `subOccurs sub l` holds when `sub` occurs contiguously in `l`. -/
def subOccurs : List Char → List Char → Bool
  | sub, [] => leadsWith sub []
  | sub, c :: rest => leadsWith sub (c :: rest) || subOccurs sub rest

/-- `sub` occurs in `s` as a contiguous substring. -/
def containsSub (s sub : String) : Bool :=
  subOccurs sub.data s.data

/-- The settled outcome of an AngularJS promise: fulfilled with a value or
rejected with an error. -/
abbrev Promise (ε α : Type) := Except ε α

/-- Model of `p.then(onFulfilled)` with no rejection handler: a fulfilled
promise maps through `onFulfilled`; a rejection propagates unchanged. -/
def promiseThen {ε α β : Type} (p : Promise ε α) (onFulfilled : α → β) :
    Promise ε β :=
  match p with
  | Except.ok a => Except.ok (onFulfilled a)
  | Except.error e => Except.error e

/-- An HTTP response as seen by `$http`: the payload lives in `data`. -/
structure HttpResponse (α : Type) where
  data : α
  deriving Repr, DecidableEq

/-- The HTTP backend: how the server settles a GET for each URL. -/
structure HttpBackend (ε α : Type) where
  respond : String → Promise ε (HttpResponse α)

/-- Model of `$http.get url`: the settled promise, plus the log of requests
this call issues (exactly one). -/
def httpGet {ε α : Type} (b : HttpBackend ε α) (url : String) :
    Promise ε (HttpResponse α) × List String :=
  (b.respond url, [url])

/-- The route parameters of the current route (`$route.current.params`). -/
structure RouteParams where
  albumId : String
  deriving Repr, DecidableEq

/-- `resolve.album` of the `/album/:albumId` route in app.js:
`$http.get('api/album/' + $route.current.params.albumId)
  .then(function (response) \x7b return response.data; \x7d)`
(the `console.log` call has no effect on the result). -/
def resolveAlbum {ε α : Type} (b : HttpBackend ε α) (params : RouteParams) :
    Promise ε α × List String :=
  let g := httpGet b ("api/album/" ++ params.albumId)
  (promiseThen g.1 (fun response => response.data), g.2)

/-- Backend answering every request with data 7, used as a concrete
instantiation. -/
def okBackend : HttpBackend String Nat :=
  { respond := fun _ => Except.ok { data := 7 } }

/-- Backend rejecting every request, used as a concrete instantiation. -/
def failBackend : HttpBackend String Nat :=
  { respond := fun _ => Except.error "boom" }

/-- One entry of the `$routeProvider` configuration. -/
structure RouteDef where
  templateUrl : Option String
  template : Option String
  controller : Option String
  resolvesAlbum : Bool
  deriving Repr, DecidableEq

def albumRoute : RouteDef :=
  { templateUrl := some "app/album/album.html", template := none,
    controller := some "AlbumController", resolvesAlbum := true }

def topRatedRoute : RouteDef :=
  { templateUrl := some "app/toprated/toprated.html", template := none,
    controller := some "TopRatedController", resolvesAlbum := false }

def rootRoute : RouteDef :=
  { templateUrl := none, template := some "<div><root-test></root-test></div>",
    controller := none, resolvesAlbum := false }

def scopeRoute : RouteDef :=
  { templateUrl := none, template := some "<div><scope-test></scope-test></div>",
    controller := none, resolvesAlbum := false }

def otherwiseRoute : RouteDef :=
  { templateUrl := some "app/albums/albums.html", template := none,
    controller := some "AlbumsController", resolvesAlbum := false }

/-- The `when` entries of the `$routeProvider` configuration of app.js, in
declaration order. -/
def appRoutes : List (String × RouteDef) :=
  [("/album/:albumId", albumRoute), ("/toprated", topRatedRoute),
   ("/root", rootRoute), ("/scope", scopeRoute)]

def splitSlashAux : List Char → List Char → List String
  | [], acc => [String.mk acc.reverse]
  | c :: cs, acc =>
      if c = '/' then String.mk acc.reverse :: splitSlashAux cs []
      else splitSlashAux cs (c :: acc)

/-- Split a path into its slash-separated segments. -/
def pathSegs (s : String) : List String :=
  splitSlashAux s.data []

/-- ngRoute segment matching, restricted to the patterns this app uses: a
`:param` segment matches any non-empty segment, any other segment matches
only itself. -/
def segMatches (pat seg : String) : Bool :=
  match pat.data with
  | ':' :: _ => !(seg.data == [])
  | _ => pat.data == seg.data

/-- A route pattern matches a path when the segment lists align
pointwise. -/
def routeMatches (pat path : String) : Bool :=
  let ps := pathSegs pat
  let ss := pathSegs path
  ps.length == ss.length && (ps.zip ss).all fun q => segMatches q.1 q.2

/-- The route the router selects for a path: the first matching `when`
entry, else the `otherwise` route. -/
def matchRoute (path : String) : RouteDef :=
  match appRoutes.find? (fun r => routeMatches r.1 path) with
  | some r => r.2
  | none => otherwiseRoute

/-- The calls observable on the external ScenariosService. -/
inductive SvcCall where
  | scenario1
  | scenario2
  | scenario3
  | scenario4
  deriving Repr, DecidableEq

/-- The external ScenariosService, abstracted over its internal state type:
each method is a state transformer. -/
structure ScenariosService (σ : Type) where
  scenario1 : σ → σ
  scenario2 : σ → σ
  scenario3 : σ → σ
  scenario4 : σ → σ

/-- The `$scope` fields assigned by `HomeController` in app.js. -/
structure HomeScope (σ : Type) where
  isActive : String → Bool
  scenario1 : σ → σ
  scenario2 : σ → σ
  scenario3 : σ → σ
  scenario4 : σ → σ

/-- `HomeController`: `isActive` compares its argument with
`$location.path()` using strict equality, and each `scenarioI` trigger
calls the corresponding `ScenariosService.scenarioI` with no arguments and
does nothing else. -/
def HomeController {σ : Type} (locationPath : String)
    (svc : ScenariosService σ) : HomeScope σ :=
  { isActive := fun viewLocation => viewLocation == locationPath,
    scenario1 := fun s => svc.scenario1 s,
    scenario2 := fun s => svc.scenario2 s,
    scenario3 := fun s => svc.scenario3 s,
    scenario4 := fun s => svc.scenario4 s }

/-- Instrumented service whose state records the calls performed, in
order. -/
def loggingService : ScenariosService (List SvcCall) :=
  { scenario1 := fun l => l ++ [SvcCall.scenario1],
    scenario2 := fun l => l ++ [SvcCall.scenario2],
    scenario3 := fun l => l ++ [SvcCall.scenario3],
    scenario4 := fun l => l ++ [SvcCall.scenario4] }

/-- Angular normalization of a camelCase directive name to the kebab-case
element tag it matches in templates. -/
def directiveTag (name : String) : String :=
  String.mk (name.data.foldr
    (fun c acc => if c.isUpper then '-' :: c.toLower :: acc else c :: acc) [])

/-- The directive registered by root.directive.js. -/
def rootTestName : String := "rootTest"

/-- Modelled from the spec: the demo front-end defines two directives; the
second one (matching the `<scope-test>` element of the `/scope` route
template) is not among the provided source files - only its use site in
app.js is - so its registration is taken from the spec. -/
def scopeTestName : String := "scopeTest"

/-- The directive names the demo front-end registers. -/
def registeredDirectives : List String := [rootTestName, scopeTestName]

theorem intercalate_go_replicate (sep acc : String) (n : Nat) :
    String.intercalate.go acc sep (List.replicate (n + 1) "") =
      String.intercalate.go (acc ++ sep) sep (List.replicate n "") := by
  simp [List.replicate_succ, String.intercalate.go]

theorem intercalate_go_x_data (n : Nat) : ∀ acc : String,
    (String.intercalate.go acc "x" (List.replicate n "")).data =
      acc.data ++ List.replicate n 'x' := by
  induction n with
  | zero => intro acc; simp [String.intercalate.go]
  | succ m ih =>
      intro acc
      rw [intercalate_go_replicate, ih]
      simp [String.data_append, List.replicate_succ]

theorem newArrayJoin_succ_x_data (n : Nat) :
    (newArrayJoin (n + 1) "x").data = List.replicate n 'x' := by
  unfold newArrayJoin
  rw [List.replicate_succ, String.intercalate]
  rw [intercalate_go_x_data]
  rfl

theorem newArrayJoin_succ_x (n : Nat) :
    newArrayJoin (n + 1) "x" = String.mk (List.replicate n 'x') := by
  apply String.ext
  rw [newArrayJoin_succ_x_data]

theorem newArrayJoin_succ_x_length (n : Nat) :
    (newArrayJoin (n + 1) "x").length = n := by
  rw [newArrayJoin_succ_x]
  simp [String.length]

theorem largeVal_eq : largeVal = String.mk (List.replicate 999998 'x') :=
  newArrayJoin_succ_x 999998

theorem largeVal_length : largeVal.length = 999998 :=
  newArrayJoin_succ_x_length 999998

theorem good_init : GoodState initState := by
  constructor <;> intro x hx <;> simp [initState] at hx

theorem good_link (st : AppState) (h : GoodState st) : GoodState (link st) := by
  obtain ⟨hs, hl⟩ := h
  refine ⟨?_, ?_⟩
  · intro s hsm
    simp only [link, List.mem_append, List.mem_singleton] at hsm
    rcases hsm with h1 | h1
    · exact hs s h1
    · subst h1; rfl
  · intro r hrm
    simp only [link, List.mem_append, List.mem_singleton] at hrm
    rcases hrm with h1 | h1
    · obtain ⟨ha, hn, hi⟩ := hl r h1
      refine ⟨ha, hn, ?_⟩
      simp only [link, List.length_append, List.length_singleton]
      omega
    · subst h1
      refine ⟨rfl, rfl, ?_⟩
      simp [link]

theorem fireHandler_length (r : Registration) (scopes : List Scope) :
    (fireHandler r scopes).length = scopes.length := by
  unfold fireHandler
  split <;> simp

theorem fireHandler_mem (r : Registration) (scopes : List Scope)
    (h : ∀ s ∈ scopes, s.val = some largeVal) :
    ∀ s ∈ fireHandler r scopes, s.val = some largeVal := by
  intro s hs
  unfold fireHandler at hs
  split at hs
  · rcases List.mem_or_eq_of_mem_set hs with h1 | h1
    · exact h s h1
    · subst h1; rfl
  · exact h s hs

theorem foldl_fire_length (rs : List Registration) :
    ∀ scopes : List Scope,
      (rs.foldl (fun sc r => fireHandler r sc) scopes).length = scopes.length := by
  induction rs with
  | nil => intro scopes; rfl
  | cons r rs ih =>
      intro scopes
      rw [List.foldl_cons, ih, fireHandler_length]

theorem foldl_fire_mem (rs : List Registration) :
    ∀ scopes : List Scope, (∀ s ∈ scopes, s.val = some largeVal) →
      ∀ s ∈ rs.foldl (fun sc r => fireHandler r sc) scopes,
        s.val = some largeVal := by
  induction rs with
  | nil => intro scopes h; exact h
  | cons r rs ih =>
      intro scopes h
      exact ih (fireHandler r scopes) (fireHandler_mem r scopes h)

theorem good_broadcast (st : AppState) (h : GoodState st) :
    GoodState (broadcastSomeEvent st) := by
  obtain ⟨hs, hl⟩ := h
  refine ⟨?_, ?_⟩
  · exact foldl_fire_mem st.listeners st.scopes hs
  · intro r hrm
    obtain ⟨ha, hn, hi⟩ := hl r hrm
    refine ⟨ha, hn, ?_⟩
    show r.scopeIdx < (broadcastSomeEvent st).scopes.length
    simp only [broadcastSomeEvent]
    rw [foldl_fire_length]
    exact hi

theorem good_step (e : Event) (st : AppState) (h : GoodState st) :
    GoodState (step e st) := by
  cases e with
  | invokeLink => exact good_link st h
  | fireSomeEvent => exact good_broadcast st h
  | destroyElement => exact h

theorem good_run (tr : List Event) : ∀ st : AppState,
    GoodState st → GoodState (run tr st) := by
  induction tr with
  | nil => intro st h; exact h
  | cons e tr ih => intro st h; exact ih (step e st) (good_step e st h)

theorem good_reach (tr : List Event) : GoodState (run tr initState) :=
  good_run tr initState good_init

theorem listeners_step_length (e : Event) (st : AppState) :
    (step e st).listeners.length =
      st.listeners.length + (if e = Event.invokeLink then 1 else 0) := by
  cases e <;> simp [step, link, broadcastSomeEvent]

theorem listeners_run_length (tr : List Event) : ∀ st : AppState,
    (run tr st).listeners.length =
      st.listeners.length + tr.count Event.invokeLink := by
  induction tr with
  | nil => intro st; simp [run]
  | cons e tr ih =>
      intro st
      rw [run, ih, listeners_step_length, List.count_cons]
      cases e
      all_goals simp
      all_goals omega

theorem sum_map_const {α : Type} (l : List α) (f : α → Nat) (c : Nat)
    (h : ∀ x ∈ l, f x = c) : (l.map f).sum = l.length * c := by
  induction l with
  | nil => simp
  | cons a l ih =>
      rw [List.map_cons, List.sum_cons,
        ih (fun x hx => h x (List.mem_cons_of_mem a hx)),
        h a (List.mem_cons_self a l), List.length_cons]
      ring

theorem scopeRetained_of_good (scopes : List Scope)
    (h : ∀ s ∈ scopes, s.val = some largeVal) (i : Nat)
    (hi : i < scopes.length) : scopeRetained scopes i = 999998 := by
  have hv := h _ (List.getElem_mem hi)
  unfold scopeRetained
  rw [List.getElem?_eq_getElem hi]
  simp only [hv]
  exact largeVal_length

theorem retained_of_good (st : AppState) (h : GoodState st) :
    retainedMem st = st.listeners.length * 999998 := by
  obtain ⟨hs, hl⟩ := h
  unfold retainedMem
  have hfilter : (st.listeners.filter fun r => r.active) = st.listeners :=
    List.filter_eq_self.mpr (fun r hr => (hl r hr).1)
  rw [hfilter]
  exact sum_map_const st.listeners _ 999998
    (fun r hr => scopeRetained_of_good st.scopes hs r.scopeIdx (hl r hr).2.2)

theorem count_replicate_link (n : Nat) :
    (List.replicate n Event.invokeLink).count Event.invokeLink = n := by
  induction n with
  | zero => rfl
  | succ m ih => rw [List.replicate_succ, List.count_cons]; simp [ih]

theorem retained_linkTrace (n : Nat) :
    retainedMem (run (List.replicate n Event.invokeLink) initState) =
      n * 999998 := by
  have h1 := retained_of_good _ (good_reach (List.replicate n Event.invokeLink))
  have h2 := listeners_run_length (List.replicate n Event.invokeLink) initState
  rw [h1, h2, count_replicate_link]
  simp only [initState, List.length_nil]
  omega

theorem listeners_step_mono (e : Event) (st : AppState) :
    st.listeners.length ≤ (step e st).listeners.length := by
  rw [listeners_step_length]
  split <;> omega

theorem retained_step_mono (tr : List Event) (e : Event) :
    retainedMem (run tr initState) ≤ retainedMem (step e (run tr initState)) := by
  have hg := good_reach tr
  have hg2 := good_step e _ hg
  rw [retained_of_good _ hg, retained_of_good _ hg2]
  exact Nat.mul_le_mul_right _ (listeners_step_mono e _)

theorem getElem?_append_singleton {α : Type} (l : List α) (a : α) :
    (l ++ [a])[l.length]? = some a := by
  rw [List.getElem?_append_right (Nat.le_refl _)]
  simp

theorem scopeRetained_link (st : AppState) :
    scopeRetained (link st).scopes st.scopes.length = 999998 := by
  have hsc : (link st).scopes = st.scopes ++ [{ val := some largeVal }] := rfl
  unfold scopeRetained
  rw [hsc, getElem?_append_singleton]
  exact largeVal_length

/-- C1: invoking the exposed scenario repeatedly (each invocation re-runs
the rootTest link function) makes the retained memory strictly increase
with every invocation: after n invocations exactly n * 999998 characters
are retained through the someEvent listener list, each link invocation
adds one listener closing over the large string, and no program event
ever removes a listener or decreases the retained memory. -/
theorem scenario_retained_memory_monotone :
    (∀ n : Nat,
      retainedMem (run (List.replicate n Event.invokeLink) initState) =
        n * 999998) ∧
    (∀ n : Nat,
      retainedMem (run (List.replicate n Event.invokeLink) initState) <
        retainedMem (run (List.replicate (n + 1) Event.invokeLink) initState)) ∧
    (∀ st : AppState, (link st).listeners.length = st.listeners.length + 1) ∧
    (∀ (tr : List Event) (e : Event),
      (run tr initState).listeners.length ≤
        (step e (run tr initState)).listeners.length) ∧
    (∀ (tr : List Event) (e : Event),
      retainedMem (run tr initState) ≤
        retainedMem (step e (run tr initState))) := by
  refine ⟨retained_linkTrace, ?_, ?_, ?_, ?_⟩
  · intro n
    rw [retained_linkTrace, retained_linkTrace]
    omega
  · intro st; simp [link]
  · intro tr e; exact listeners_step_mono e _
  · intro tr e; exact retained_step_mono tr e

/-- C2: in every execution, the deregistration function cleanUp returned
by the someEvent registration is never invoked: on every event trace every
registration stays active, the listener count equals the number of link
invocations (nothing is ever deregistered), and the element destruction
event runs no directive code at all since the only call site of cleanUp is
commented out. -/
theorem cleanUp_never_invoked :
    (∀ tr : List Event,
      ((run tr initState).listeners.all fun r => r.active) = true) ∧
    (∀ tr : List Event,
      (run tr initState).listeners.length = tr.count Event.invokeLink) ∧
    (∀ st : AppState, step Event.destroyElement st = st) := by
  refine ⟨?_, ?_, fun st => rfl⟩
  · intro tr
    rw [List.all_eq_true]
    intro r hr
    exact ((good_reach tr).2 r hr).1
  · intro tr
    have h := listeners_run_length tr initState
    simpa [initState] using h

/-- C3: every invocation of the rootTest link function creates the large
string (the join of a 999999-element array with the letter x, 999998
characters), stores it in the val field of a fresh scope, and appends one
someEvent registration whose closure captures exactly that scope, so the
string is retained while the handler stays registered. -/
theorem link_builds_and_captures_large_string :
    largeVal = newArrayJoin 999999 "x" ∧
    largeVal = String.mk (List.replicate 999998 'x') ∧
    largeVal.length = 999998 ∧
    (∀ st : AppState,
      (link st).scopes = st.scopes ++ [{ val := some largeVal }] ∧
      (link st).listeners = st.listeners ++
        [{ eventName := "someEvent", scopeIdx := st.scopes.length,
           active := true }] ∧
      ((link st).scopes)[st.scopes.length]? = some { val := some largeVal } ∧
      scopeRetained (link st).scopes st.scopes.length = 999998) := by
  refine ⟨rfl, largeVal_eq, largeVal_length, ?_⟩
  intro st
  refine ⟨rfl, rfl, ?_, scopeRetained_link st⟩
  have hsc : (link st).scopes = st.scopes ++ [{ val := some largeVal }] := rfl
  rw [hsc, getElem?_append_singleton]

/-- C4: the route table maps exactly the paths /album/:albumId, /toprated,
/root and /scope, plus a default otherwise route: the album route to
app/album/album.html with AlbumController, /toprated to
app/toprated/toprated.html with TopRatedController, /root to an inline
template containing the root-test element, /scope to an inline template
containing the scope-test element, and every other path to
app/albums/albums.html with AlbumsController. -/
theorem route_table_spec :
    (appRoutes.map Prod.fst =
      ["/album/:albumId", "/toprated", "/root", "/scope"]) ∧
    (matchRoute "/album/42" = albumRoute ∧
      albumRoute.templateUrl = some "app/album/album.html" ∧
      albumRoute.controller = some "AlbumController") ∧
    (matchRoute "/toprated" = topRatedRoute ∧
      topRatedRoute.templateUrl = some "app/toprated/toprated.html" ∧
      topRatedRoute.controller = some "TopRatedController") ∧
    (matchRoute "/root" = rootRoute ∧
      rootRoute.template = some "<div><root-test></root-test></div>" ∧
      containsSub "<div><root-test></root-test></div>" "<root-test>" = true) ∧
    (matchRoute "/scope" = scopeRoute ∧
      scopeRoute.template = some "<div><scope-test></scope-test></div>" ∧
      containsSub "<div><scope-test></scope-test></div>" "<scope-test>" = true) ∧
    (matchRoute "/definitely/not/mapped" = otherwiseRoute ∧
      otherwiseRoute.templateUrl = some "app/albums/albums.html" ∧
      otherwiseRoute.controller = some "AlbumsController") := by
  decide

/-- C5: for every albumId, resolving the /album/:albumId route issues a
single HTTP GET to the url api/album/ followed by the albumId taken from
the route parameters, and the resolved album value is the data field of
the HTTP response. -/
theorem resolveAlbum_single_get_and_data :
    ∀ (ε α : Type) (b : HttpBackend ε α) (params : RouteParams),
      (resolveAlbum b params).2 = ["api/album/" ++ params.albumId] ∧
      ∀ resp : HttpResponse α,
        b.respond ("api/album/" ++ params.albumId) = Except.ok resp →
          (resolveAlbum b params).1 = Except.ok resp.data := by
  intro ε α b params
  refine ⟨rfl, ?_⟩
  intro resp h
  show promiseThen (b.respond ("api/album/" ++ params.albumId))
      (fun response => response.data) = Except.ok resp.data
  rw [h]
  rfl

theorem resolveAlbum_single_get_and_data_witness :
    (resolveAlbum okBackend { albumId := "42" }).2 = ["api/album/42"] ∧
    (resolveAlbum okBackend { albumId := "42" }).1 = Except.ok 7 := by
  have h := resolveAlbum_single_get_and_data String Nat okBackend
    { albumId := "42" }
  exact ⟨by rw [h.1]; rfl, h.2 { data := 7 } rfl⟩

/-- C6: HomeController exposes the four named triggers scenario1 to
scenario4, and each one performs exactly one call of the corresponding
ScenariosService method, with no arguments and nothing else: its effect
on any abstract service equals that method, and on the instrumented
logging service it appends exactly the one corresponding call. -/
theorem homeController_scenario_triggers :
    (∀ (σ : Type) (svc : ScenariosService σ) (p : String) (s : σ),
      (HomeController p svc).scenario1 s = svc.scenario1 s ∧
      (HomeController p svc).scenario2 s = svc.scenario2 s ∧
      (HomeController p svc).scenario3 s = svc.scenario3 s ∧
      (HomeController p svc).scenario4 s = svc.scenario4 s) ∧
    (∀ (p : String) (l : List SvcCall),
      (HomeController p loggingService).scenario1 l = l ++ [SvcCall.scenario1] ∧
      (HomeController p loggingService).scenario2 l = l ++ [SvcCall.scenario2] ∧
      (HomeController p loggingService).scenario3 l = l ++ [SvcCall.scenario3] ∧
      (HomeController p loggingService).scenario4 l = l ++ [SvcCall.scenario4]) :=
  ⟨fun _ _ _ _ => ⟨rfl, rfl, rfl, rfl⟩, fun _ _ => ⟨rfl, rfl, rfl, rfl⟩⟩

/-- C7: the demo front-end registers two directives, and both element tags
referenced by the route templates (root-test and scope-test) correspond to
registered directives under Angular name normalization.  The scope-test
directive source is not among the provided files, so its registration is
modelled from the spec. -/
theorem two_directives_defined :
    registeredDirectives = [rootTestName, scopeTestName] ∧
    registeredDirectives.length = 2 ∧
    directiveTag rootTestName = "root-test" ∧
    directiveTag scopeTestName = "scope-test" ∧
    containsSub "<div><root-test></root-test></div>"
      ("<" ++ directiveTag rootTestName ++ ">") = true ∧
    containsSub "<div><scope-test></scope-test></div>"
      ("<" ++ directiveTag scopeTestName ++ ">") = true ∧
    rootRoute.template = some "<div><root-test></root-test></div>" ∧
    scopeRoute.template = some "<div><scope-test></scope-test></div>" := by
  decide

/-- C8: the /album/:albumId resolve chain attaches no rejection handler:
whenever the backend rejects the request, the resolved promise is that
very rejection, unchanged, and still exactly one request was issued (no
catch, no retry, no transformation). -/
theorem resolve_error_propagates :
    ∀ (ε α : Type) (b : HttpBackend ε α) (params : RouteParams) (e : ε),
      b.respond ("api/album/" ++ params.albumId) = Except.error e →
        (resolveAlbum b params).1 = Except.error e ∧
        (resolveAlbum b params).2 = ["api/album/" ++ params.albumId] := by
  intro ε α b params e h
  refine ⟨?_, rfl⟩
  show promiseThen (b.respond ("api/album/" ++ params.albumId))
      (fun response => response.data) = Except.error e
  rw [h]
  rfl

theorem resolve_error_propagates_witness :
    (resolveAlbum failBackend { albumId := "9" }).1 = Except.error "boom" ∧
    (resolveAlbum failBackend { albumId := "9" }).2 = ["api/album/9"] := by
  have h := resolve_error_propagates String Nat failBackend
    { albumId := "9" } "boom" rfl
  exact ⟨h.1, by rw [h.2]; rfl⟩

/-- C9: isActive of HomeController returns true exactly when its argument
equals the current location path under strict equality; it is a pure
comparison against the location path. -/
theorem isActive_strict_equality :
    ∀ (σ : Type) (svc : ScenariosService σ) (p v : String),
      ((HomeController p svc).isActive v = true ↔ v = p) ∧
      (HomeController p svc).isActive v = (v == p) := by
  intro σ svc p v
  refine ⟨?_, rfl⟩
  show (v == p) = true ↔ v = p
  simp

/-- C10: on every event trace, every scope the rootTest directive created
holds in val exactly the string of 999998 times the letter x: link sets it
and every someEvent firing resets it to the same string; no operation of
the directive ever assigns any other value. -/
theorem scope_val_invariant_999998_x :
    ∀ tr : List Event,
      ((run tr initState).scopes.all
        fun s => s.val == some (String.mk (List.replicate 999998 'x'))) = true := by
  intro tr
  rw [List.all_eq_true]
  intro s hs
  have hval := (good_reach tr).1 s hs
  have hx : s.val = some (String.mk (List.replicate 999998 'x')) := by
    rw [hval, largeVal_eq]
  simp only [beq_iff_eq]
  exact hx

end MemLeakDemo
